import Mathlib

/-!
Shallow embedding of `src/main.py` (class `Logistic_regression`): a binary
logistic-regression model trained by full-batch gradient descent, with its
evaluation routines (confusion matrix, ROC sweep and trapezoidal AUC).

Conventions of the embedding:
* numpy floating-point values are modelled as rationals (`ℚ`);
* the transcendental `np.exp` and `np.log` of the external numeric
  collaborator are abstract parameters `exp log : ℚ → ℚ`, so every theorem
  below holds for any interpretation of them;
* `np.random.randn`, the injectable random source, is a parameter
  `randn : ℕ → List ℚ`;
* a numpy vector is a `List ℚ`, a matrix a row-major `List (List ℚ)`
  (numpy arrays are rectangular; theorems carry that as a hypothesis);
* Python exceptions plus the "print a message and return None" pattern are
  modelled by `Except PyErr`;
* the `while` loop of `fit` runs on explicit fuel `max_iter - iterations`,
  which mirrors the guard conjunct `iterations < max_iter`; the state keeps
  the `iterations` counter so the two stay in lockstep;
* rational division by zero yields `0` where Python integer division would
  raise `ZeroDivisionError`; the `ROC` theorem therefore assumes both label
  classes occur in `T`, which makes every denominator positive.
-/

namespace Logistic_regression

/-- Failure modes observable from the Python code. `notTrained` models the
"Model not trained." message followed by returning `None`; `valueError`,
`typeError` and `indexError` model the exceptions numpy/Python raise;
`shapeMismatch` is the entry-check failure described by the SPEC only (the
code itself never produces it). -/
inductive PyErr where
  | notTrained
  | valueError
  | typeError
  | indexError
  | shapeMismatch
deriving DecidableEq, Repr

/-- Value of the dot product of two vectors (the shape check lives in
`dotE`). -/
def dotQ (a b : List ℚ) : ℚ := (List.zipWith (· * ·) a b).sum

/-- `a.dot(b)` for 1-d numpy arrays: raises `ValueError` when the shapes
disagree. -/
def dotE (a b : List ℚ) : Except PyErr ℚ :=
  if a.length = b.length then .ok (dotQ a b) else .error .valueError

/-- Elementwise `a - b` on equal-length numpy vectors. -/
def vecSubE (a b : List ℚ) : Except PyErr (List ℚ) :=
  if a.length = b.length then .ok (List.zipWith (· - ·) a b) else .error .valueError

/-- Elementwise `a + b` on equal-length numpy vectors (used by `w += w_change`). -/
def vecAddE (a b : List ℚ) : Except PyErr (List ℚ) :=
  if a.length = b.length then .ok (List.zipWith (· + ·) a b) else .error .valueError

/-- Scalar times vector. -/
def scale (c : ℚ) (v : List ℚ) : List ℚ := v.map (fun x => c * x)

/-- `A.dot(v)` for a matrix `A`: one dot product per row. -/
def matVecE : List (List ℚ) → List ℚ → Except PyErr (List ℚ)
  | [], _ => .ok []
  | r :: A, v =>
    match dotE r v with
    | .error err => .error err
    | .ok d =>
      match matVecE A v with
      | .error err => .error err
      | .ok ds => .ok (d :: ds)

/-- Value of `A.T.dot(v)`: entry `j` is `∑ i, A[i][j] * v[i]`. -/
def matTdotv (A : List (List ℚ)) (v : List ℚ) : List ℚ :=
  (List.range (A.headD []).length).map (fun j => dotQ (A.map (fun r => r.getD j 0)) v)

/-- `A.T.dot(v)` with numpy's shape check (`v` needs one entry per row of `A`). -/
def matTdotvE (A : List (List ℚ)) (v : List ℚ) : Except PyErr (List ℚ) :=
  if v.length = A.length then .ok (matTdotv A v) else .error .valueError

/-- `sigmoid(z) = 1 / (1 + exp(-z))`, with `exp` the abstract exponential of
the numeric collaborator; numpy applies it elementwise, the embedding maps it
over lists. -/
def sigmoid (exp : ℚ → ℚ) (z : ℚ) : ℚ := 1 / (1 + exp (-z))

/-- Value of `cross_entropy(T, y_pred)` when the shapes agree. -/
def cross_entropyQ (log : ℚ → ℚ) (T y_pred : List ℚ) : ℚ :=
  -dotQ T (y_pred.map log) -
    dotQ (T.map (fun t => 1 - t)) (y_pred.map (fun y => log (1 - y)))

/-- `cross_entropy(T, y_pred) = -T.dot(log(y_pred)) - (1-T).dot(log(1-y_pred))`
with numpy's shape checks on both dot products. -/
def cross_entropy (log : ℚ → ℚ) (T y_pred : List ℚ) : Except PyErr ℚ :=
  match dotE T (y_pred.map log) with
  | .error err => .error err
  | .ok d1 =>
    match dotE (T.map (fun t => 1 - t)) (y_pred.map (fun y => log (1 - y))) with
    | .error err => .error err
    | .ok d2 => .ok (-d1 - d2)

/-- The mutable state of a `Logistic_regression` object. -/
structure Model where
  D : Option ℕ
  trained : Bool
  max_iter : ℕ
  a : ℚ
  w : Option (List ℚ)
  N : Option ℕ
  error_diff : ℚ
  show_ : Bool
deriving DecidableEq, Repr

/-- `__init__(max_iter, a, error_diff, show)`; the source defaults are
`1000, 0.01, 1e-7, False`. -/
def init (max_iter : ℕ) (a error_diff : ℚ) (show_ : Bool) : Model :=
  { D := none, trained := false, max_iter := max_iter, a := a, w := none,
    N := none, error_diff := error_diff, show_ := show_ }

/-- Prepend the `x0 = 1` intercept column
(`np.concatenate((ones, X), axis=1)`). -/
def augment (X : List (List ℚ)) : List (List ℚ) := X.map (fun r => 1 :: r)

/-- The locals of the gradient-descent loop in `fit`. -/
structure LoopState where
  w : List ℚ
  y_prob : List ℚ
  e : ℚ
  e_prev : ℚ
  iterations : ℕ
deriving Repr

/-- The `while iterations < self.max_iter and e > self.error_diff` loop of
`fit`, one-to-one.  The guard conjunct `iterations < max_iter` is carried by
the fuel argument (`fit` passes `max_iter - iterations`); the body keeps
`iterations` in the state so `fuel = max_iter - iterations` throughout. -/
def fitLoop (exp log : ℚ → ℚ) (a error_diff : ℚ) (Xaug : List (List ℚ)) (Y : List ℚ) :
    ℕ → LoopState → Except PyErr LoopState
  | 0, s => .ok s
  | fuel + 1, s =>
    if error_diff < s.e then
      match vecSubE Y s.y_prob with
      | .error err => .error err
      | .ok d =>
        match matTdotvE Xaug d with
        | .error err => .error err
        | .ok g =>
          match vecAddE s.w (scale a g) with
          | .error err => .error err
          | .ok w' =>
            match matVecE Xaug w' with
            | .error err => .error err
            | .ok z =>
              match cross_entropy log Y (z.map (sigmoid exp)) with
              | .error err => .error err
              | .ok e_new =>
                fitLoop exp log a error_diff Xaug Y fuel
                  { w := w', y_prob := z.map (sigmoid exp),
                    e := s.e_prev - e_new, e_prev := e_new,
                    iterations := s.iterations + 1 }
    else .ok s

/-- `fit(X, Y)`: record `N` and `D`, augment `X`, draw the initial weights
`w = 0.01 * randn(D + 1)`, compute the initial probabilities and loss, then
run the loop from `iterations = 1`, `e = 1`.  On normal return the model is
mutated to `trained := true`, `w := final weights`; a numpy shape error
surfaces as `Except.error` (the Python exception propagates and the object
keeps `trained = False`). -/
def fit (exp log : ℚ → ℚ) (randn : ℕ → List ℚ) (m : Model)
    (X : List (List ℚ)) (Y : List ℚ) : Except PyErr Model :=
  let N := X.length
  let D := (X.headD []).length
  let Xaug := augment X
  let w0 := (randn (D + 1)).map (fun r => (1 / 100 : ℚ) * r)
  match matVecE Xaug w0 with
  | .error err => .error err
  | .ok z0 =>
    match cross_entropy log Y (z0.map (sigmoid exp)) with
    | .error err => .error err
    | .ok e0 =>
      match fitLoop exp log m.a m.error_diff Xaug Y (m.max_iter - 1)
          { w := w0, y_prob := z0.map (sigmoid exp), e := 1, e_prev := e0,
            iterations := 1 } with
      | .error err => .error err
      | .ok sf =>
        .ok { m with D := some D, N := some N, trained := true, w := some sf.w }

/-- `get_coef()`: returns `self.w` when trained, otherwise prints
"Model not trained." and returns `None` (modelled as `notTrained`). -/
def get_coef (m : Model) : Except PyErr (Option (List ℚ)) :=
  if m.trained then .ok m.w else .error .notTrained

/-- `y_probab(X) = self.sigmoid(X.dot(self.w))`.  Note: the source has no
`trained` check here and no augmentation — its caller `predict` passes the
already-augmented matrix; with `w = None` (before `fit`) the numpy product
raises a `TypeError`. -/
def y_probab (exp : ℚ → ℚ) (m : Model) (X : List (List ℚ)) : Except PyErr (List ℚ) :=
  match m.w with
  | none => .error .typeError
  | some w =>
    match matVecE X w with
    | .error err => .error err
    | .ok z => .ok (z.map (sigmoid exp))

/-- `predict(X, p=0.5)`: when trained, augment `X`, take the probabilities
from `y_probab` and threshold them (`0 if i < p else 1`); otherwise print
"Model not trained." and return `None`. -/
def predict (exp : ℚ → ℚ) (m : Model) (X : List (List ℚ)) (p : ℚ) :
    Except PyErr (List ℚ) :=
  if m.trained then
    match y_probab exp m (augment X) with
    | .error err => .error err
    | .ok probs => .ok (probs.map (fun i => if i < p then (0 : ℚ) else 1))
  else .error .notTrained

/-- `confusion_matrix(T, Y_prob, values=True)`: walk the samples in order,
bucketing on `T[i] == 0`, then `Y_prob[i] == 0` (resp. `== 1`); the result is
`(TP, FP, FN, TN)`.  `none` models the `IndexError` raised when `Y_prob` is
shorter than `T`; extra entries of `Y_prob` are ignored, as in the source. -/
def confusion_matrix : List ℚ → List ℚ → Option (ℕ × ℕ × ℕ × ℕ)
  | [], _ => some (0, 0, 0, 0)
  | _ :: _, [] => none
  | t :: T, y :: Y =>
    (confusion_matrix T Y).map (fun q =>
      if t = 0 then
        (if y = 0 then (q.1 + 1, q.2.1, q.2.2.1, q.2.2.2)
         else (q.1, q.2.1, q.2.2.1 + 1, q.2.2.2))
      else
        (if y = 1 then (q.1, q.2.1, q.2.2.1, q.2.2.2 + 1)
         else (q.1, q.2.1 + 1, q.2.2.1, q.2.2.2)))

/-- `confusion_matrix(T, Y_prob)` with `values=False`: the
`np.array([[TP, FN], [FP, TN]])` form. -/
def confusion_matrix_array (T Y : List ℚ) : Option (List (List ℕ)) :=
  (confusion_matrix T Y).map (fun q => [[q.1, q.2.2.1], [q.2.1, q.2.2.2]])

/-- `np.linspace(0, 1, num=100)`: 100 evenly spaced rationals from 0 to 1
inclusive. -/
def linspace100 : List ℚ := (List.range 100).map (fun i : ℕ => (i : ℚ) / 99)

/-- The threshold sweep of `ROC`: for each `p`, predict at `p`, take the
confusion counts, and append `recall = TP/(TP+FN)` to the first list and
`1 - specificity = 1 - TN/(TN+FP)` to the second, in sweep order. -/
def ROC_sweep (exp : ℚ → ℚ) (m : Model) (X : List (List ℚ)) (T : List ℚ) :
    List ℚ → Except PyErr (List ℚ × List ℚ)
  | [] => .ok ([], [])
  | p :: ps =>
    match predict exp m X p with
    | .error err => .error err
    | .ok y_predict =>
      match confusion_matrix T y_predict with
      | none => .error .indexError
      | some q =>
        match ROC_sweep exp m X T ps with
        | .error err => .error err
        | .ok rs =>
          .ok ((q.1 : ℚ) / (q.1 + q.2.2.1) :: rs.1,
               (1 - (q.2.2.2 : ℚ) / (q.2.2.2 + q.2.1)) :: rs.2)

/-- `ROC(X, T)`: sweep the 100 thresholds collecting `recall` and
`specif_minus`, then accumulate the trapezoidal AUC over consecutive entries
in sweep order.  The source hands `(specif_minus, recall, auc)` to the
plotting sink (matplotlib) and returns `None`; the embedding returns that
output. -/
def ROC (exp : ℚ → ℚ) (m : Model) (X : List (List ℚ)) (T : List ℚ) :
    Except PyErr (List ℚ × List ℚ × ℚ) :=
  match ROC_sweep exp m X T linspace100 with
  | .error err => .error err
  | .ok rs =>
    let recs := rs.1
    let specif_minus := rs.2
    let auc := ((List.range (recs.length - 1)).map (fun i =>
      (recs.getD i 0 + recs.getD (i + 1) 0) *
        (specif_minus.getD (i + 1) 0 - specif_minus.getD i 0) * (1 / 2))).sum
    .ok (specif_minus, recs, auc)

/-- Follows the SPEC's words for `predict_probability(X)` (§4.4): augment `X`
with the intercept column, return `sigmoid(X_aug · w)`, and fail with the
model-not-trained condition when called before `fit`.  Spec-side definition,
for comparison with the source's `y_probab`. -/
def predict_probability_spec (exp : ℚ → ℚ) (m : Model) (X : List (List ℚ)) :
    Except PyErr (List ℚ) :=
  if m.trained then
    match m.w with
    | none => .error .typeError
    | some w =>
      match matVecE (augment X) w with
      | .error err => .error err
      | .ok z => .ok (z.map (sigmoid exp))
  else .error .notTrained

/-- Follows the SPEC's words (§7): `fit` checks at entry that the row count
of `X` agrees with the length of `Y`, failing with `ShapeMismatchError`
otherwise.  Spec-side definition, for comparison with the source's `fit`. -/
def fit_shape_checked_spec (exp log : ℚ → ℚ) (randn : ℕ → List ℚ) (m : Model)
    (X : List (List ℚ)) (Y : List ℚ) : Except PyErr Model :=
  if X.length ≠ Y.length then .error .shapeMismatch else fit exp log randn m X Y

/-- Follows the SPEC's words (§7): `predict` checks at entry that the feature
width of `X` agrees with the fitted weight length minus one.  Spec-side
definition, for comparison with the source's `predict`. -/
def predict_shape_checked_spec (exp : ℚ → ℚ) (m : Model) (X : List (List ℚ))
    (p : ℚ) : Except PyErr (List ℚ) :=
  if (X.headD []).length + 1 ≠ (m.w.getD []).length then .error .shapeMismatch
  else predict exp m X p

deriving instance DecidableEq for Except

/-! ### Helper lemmas about the linear-algebra layer -/

theorem getD_map {α β : Type} (f : α → β) (l : List α) (d : β) (d' : α) {i : ℕ}
    (h : i < l.length) : (l.map f).getD i d = f (l.getD i d') := by
  rw [List.getD_eq_getElem _ _ (by simpa using h), List.getD_eq_getElem _ _ h,
    List.getElem_map]

theorem getD_zipWith (f : ℚ → ℚ → ℚ) {a b : List ℚ} {i : ℕ}
    (ha : i < a.length) (hb : i < b.length) :
    (List.zipWith f a b).getD i 0 = f (a.getD i 0) (b.getD i 0) := by
  rw [List.getD_eq_getElem _ _ (by simp [List.length_zipWith]; omega),
    List.getD_eq_getElem _ _ ha, List.getD_eq_getElem _ _ hb, List.getElem_zipWith]

theorem getD_range {n i : ℕ} (h : i < n) : (List.range n).getD i 0 = i := by
  rw [List.getD_eq_getElem _ _ (by simpa using h), List.getElem_range]

theorem sum_list_range (f : ℕ → ℚ) : ∀ n : ℕ,
    ((List.range n).map f).sum = ∑ i in Finset.range n, f i
  | 0 => rfl
  | n + 1 => by
    rw [List.range_succ, List.map_append, List.sum_append, Finset.sum_range_succ,
      sum_list_range f n]
    simp

theorem dotQ_nil (b : List ℚ) : dotQ [] b = 0 := rfl

theorem dotQ_cons (x y : ℚ) (a b : List ℚ) :
    dotQ (x :: a) (y :: b) = x * y + dotQ a b := by
  simp [dotQ]

theorem dotQ_eq_sum : ∀ {a b : List ℚ}, a.length = b.length →
    dotQ a b = ∑ i in Finset.range a.length, a.getD i 0 * b.getD i 0
  | [], [], _ => by simp [dotQ]
  | [], _ :: _, h => by simp at h
  | _ :: _, [], h => by simp at h
  | x :: a, y :: b, h => by
    have ih := dotQ_eq_sum (a := a) (b := b) (by simpa using h)
    rw [dotQ_cons, ih, List.length_cons, Finset.sum_range_succ']
    simp [List.getD_cons_succ, List.getD_cons_zero]
    ring

theorem dotE_ok {a b : List ℚ} (h : a.length = b.length) :
    dotE a b = .ok (dotQ a b) := by
  simp [dotE, h]

theorem vecSubE_ok {a b : List ℚ} (h : a.length = b.length) :
    vecSubE a b = .ok (List.zipWith (· - ·) a b) := by
  simp [vecSubE, h]

theorem vecAddE_ok {a b : List ℚ} (h : a.length = b.length) :
    vecAddE a b = .ok (List.zipWith (· + ·) a b) := by
  simp [vecAddE, h]

theorem matTdotvE_ok {A : List (List ℚ)} {v : List ℚ} (h : v.length = A.length) :
    matTdotvE A v = .ok (matTdotv A v) := by
  simp [matTdotvE, h]

theorem matTdotv_length (A : List (List ℚ)) (v : List ℚ) :
    (matTdotv A v).length = (A.headD []).length := by
  simp [matTdotv]

theorem matTdotv_getD (A : List (List ℚ)) (v : List ℚ) {j : ℕ}
    (h : j < (A.headD []).length) :
    (matTdotv A v).getD j 0 = dotQ (A.map (fun r => r.getD j 0)) v := by
  unfold matTdotv
  rw [getD_map _ _ _ 0 (by simpa using h), getD_range h]

theorem matVecE_ok : ∀ {A : List (List ℚ)} {v : List ℚ},
    (∀ r ∈ A, r.length = v.length) →
    matVecE A v = .ok (A.map (fun r => dotQ r v))
  | [], _, _ => rfl
  | r :: A, v, h => by
    rw [matVecE, dotE_ok (h r (by simp)),
      matVecE_ok (fun r' hr' => h r' (by simp [hr']))]
    simp

theorem cross_entropy_ok (log : ℚ → ℚ) {T y : List ℚ} (h : T.length = y.length) :
    cross_entropy log T y = .ok (cross_entropyQ log T y) := by
  rw [cross_entropy, dotE_ok (by simpa using h), dotE_ok (by simpa using h)]
  rfl

theorem scale_length (c : ℚ) (v : List ℚ) : (scale c v).length = v.length := by
  simp [scale]

theorem scale_getD (c : ℚ) (v : List ℚ) {j : ℕ} (h : j < v.length) :
    (scale c v).getD j 0 = c * v.getD j 0 :=
  getD_map _ _ _ 0 h

/-! ### Claims about `confusion_matrix` -/

/-- C9: for every pair of equal-length vectors `T` and `Y_pred`, whatever
their entry values, the four counts produced by `confusion_matrix` partition
the samples: `TP + FP + FN + TN = len T`. -/
theorem confusion_matrix_partition (T Y : List ℚ) (h : T.length = Y.length) :
    ∃ TP FP FN TN : ℕ, confusion_matrix T Y = some (TP, FP, FN, TN) ∧
      TP + FP + FN + TN = T.length := by
  induction T generalizing Y with
  | nil => exact ⟨0, 0, 0, 0, rfl, rfl⟩
  | cons t T ih =>
    cases Y with
    | nil => simp at h
    | cons y Y =>
      obtain ⟨TP, FP, FN, TN, hq, hsum⟩ := ih Y (by simpa using h)
      by_cases ht : t = 0
      · by_cases hy : y = 0
        · exact ⟨TP + 1, FP, FN, TN, by simp [confusion_matrix, hq, ht, hy],
            by simp only [List.length_cons]; omega⟩
        · exact ⟨TP, FP, FN + 1, TN, by simp [confusion_matrix, hq, ht, hy],
            by simp only [List.length_cons]; omega⟩
      · by_cases hy : y = 1
        · exact ⟨TP, FP, FN, TN + 1, by simp [confusion_matrix, hq, ht, hy],
            by simp only [List.length_cons]; omega⟩
        · exact ⟨TP, FP + 1, FN, TN, by simp [confusion_matrix, hq, ht, hy],
            by simp only [List.length_cons]; omega⟩

/-- Witness for C9 at a concrete pair with non-binary entries. -/
theorem confusion_matrix_partition_witness :
    ∃ TP FP FN TN : ℕ, confusion_matrix [0, 5, 1] [3, 1, 1] = some (TP, FP, FN, TN) ∧
      TP + FP + FN + TN = ([0, 5, 1] : List ℚ).length :=
  confusion_matrix_partition [0, 5, 1] [3, 1, 1] (by decide)

/-- C1: on equal-length binary vectors, `confusion_matrix` buckets each
sample with label 0 treated as the positive class — `T[i]=0 ∧ Y[i]=0 → TP`,
`T[i]=0 ∧ Y[i]=1 → FN`, `T[i]=1 ∧ Y[i]=1 → TN`, `T[i]=1 ∧ Y[i]=0 → FP` —
and in particular `T=[0,0,1,1]`, `Y_pred=[0,1,1,0]` gives
`TP=1, FN=1, FP=1, TN=1`. -/
theorem confusion_matrix_buckets (T Y : List ℚ) (hlen : T.length = Y.length)
    (hT : ∀ t ∈ T, t = 0 ∨ t = 1) (hY : ∀ y ∈ Y, y = 0 ∨ y = 1) :
    confusion_matrix T Y = some
      ((T.zip Y).countP (fun q => decide (q.1 = 0 ∧ q.2 = 0)),
       (T.zip Y).countP (fun q => decide (q.1 = 1 ∧ q.2 = 0)),
       (T.zip Y).countP (fun q => decide (q.1 = 0 ∧ q.2 = 1)),
       (T.zip Y).countP (fun q => decide (q.1 = 1 ∧ q.2 = 1))) ∧
    confusion_matrix [0, 0, 1, 1] [0, 1, 1, 0] = some (1, 1, 1, 1) := by
  refine ⟨?_, by decide⟩
  induction T generalizing Y with
  | nil => simp [confusion_matrix]
  | cons t T ih =>
    cases Y with
    | nil => simp at hlen
    | cons y Y =>
      have hrec := ih Y (by simpa using hlen)
        (fun t' ht' => hT t' (List.mem_cons_of_mem _ ht'))
        (fun y' hy' => hY y' (List.mem_cons_of_mem _ hy'))
      rcases hT t (List.mem_cons_self _ _) with ht | ht <;>
        rcases hY y (List.mem_cons_self _ _) with hy | hy <;>
        subst ht <;> subst hy <;>
        simp [confusion_matrix, hrec, List.zip_cons_cons, List.countP_cons]

/-- Witness for C1 at the concrete vectors from the spec scenario. -/
theorem confusion_matrix_buckets_witness :
    confusion_matrix [0, 0, 1, 1] [0, 1, 1, 0] = some
      ((([0, 0, 1, 1] : List ℚ).zip ([0, 1, 1, 0] : List ℚ)).countP
         (fun q => decide (q.1 = 0 ∧ q.2 = 0)),
       (([0, 0, 1, 1] : List ℚ).zip ([0, 1, 1, 0] : List ℚ)).countP
         (fun q => decide (q.1 = 1 ∧ q.2 = 0)),
       (([0, 0, 1, 1] : List ℚ).zip ([0, 1, 1, 0] : List ℚ)).countP
         (fun q => decide (q.1 = 0 ∧ q.2 = 1)),
       (([0, 0, 1, 1] : List ℚ).zip ([0, 1, 1, 0] : List ℚ)).countP
         (fun q => decide (q.1 = 1 ∧ q.2 = 1))) ∧
    confusion_matrix [0, 0, 1, 1] [0, 1, 1, 0] = some (1, 1, 1, 1) :=
  confusion_matrix_buckets [0, 0, 1, 1] [0, 1, 1, 0] (by decide) (by decide) (by decide)

/-! ### The gradient-descent loop -/

/-- Mathematical characterization of one iteration of the loop body: the new
weights, the recomputed probabilities, the recomputed loss, the new loss
delta, and the bumped counter.  (The executable translation of the body is
inside `fitLoop`; this pure form is what the lemmas below compare it to.) -/
def fitNext (exp log : ℚ → ℚ) (a : ℚ) (Xaug : List (List ℚ)) (Y : List ℚ)
    (s : LoopState) : LoopState :=
  let w' := List.zipWith (· + ·) s.w
    (scale a (matTdotv Xaug (List.zipWith (· - ·) Y s.y_prob)))
  let y' := (Xaug.map (fun r => dotQ r w')).map (sigmoid exp)
  let e_new := cross_entropyQ log Y y'
  { w := w', y_prob := y', e := s.e_prev - e_new, e_prev := e_new,
    iterations := s.iterations + 1 }

theorem fitLoop_step (exp log : ℚ → ℚ) (a error_diff : ℚ)
    (Xaug : List (List ℚ)) (Y : List ℚ) (fuel : ℕ) (s : LoopState)
    (hrect : ∀ r ∈ Xaug, r.length = (Xaug.headD []).length)
    (hw : s.w.length = (Xaug.headD []).length)
    (hy : s.y_prob.length = Xaug.length)
    (hY : Y.length = Xaug.length)
    (hg : error_diff < s.e) :
    fitLoop exp log a error_diff Xaug Y (fuel + 1) s =
      fitLoop exp log a error_diff Xaug Y fuel (fitNext exp log a Xaug Y s) := by
  have hsub : vecSubE Y s.y_prob =
      .ok (List.zipWith (· - ·) Y s.y_prob) := vecSubE_ok (by omega)
  have hdlen : (List.zipWith (· - ·) Y s.y_prob).length = Xaug.length := by
    rw [List.length_zipWith]; omega
  have hT : matTdotvE Xaug (List.zipWith (· - ·) Y s.y_prob) =
      .ok (matTdotv Xaug (List.zipWith (· - ·) Y s.y_prob)) := matTdotvE_ok hdlen
  have hglen : (scale a (matTdotv Xaug (List.zipWith (· - ·) Y s.y_prob))).length =
      s.w.length := by
    rw [scale_length, matTdotv_length, hw]
  have hadd : vecAddE s.w (scale a (matTdotv Xaug (List.zipWith (· - ·) Y s.y_prob))) =
      .ok (List.zipWith (· + ·) s.w
        (scale a (matTdotv Xaug (List.zipWith (· - ·) Y s.y_prob)))) :=
    vecAddE_ok hglen.symm
  have hwlen : (List.zipWith (· + ·) s.w
      (scale a (matTdotv Xaug (List.zipWith (· - ·) Y s.y_prob)))).length =
      (Xaug.headD []).length := by
    rw [List.length_zipWith, hglen, hw]; omega
  have hmv : matVecE Xaug (List.zipWith (· + ·) s.w
      (scale a (matTdotv Xaug (List.zipWith (· - ·) Y s.y_prob)))) =
      .ok (Xaug.map (fun r => dotQ r (List.zipWith (· + ·) s.w
        (scale a (matTdotv Xaug (List.zipWith (· - ·) Y s.y_prob)))))) :=
    matVecE_ok (fun r hr => by rw [hrect r hr, hwlen])
  have hce : cross_entropy log Y (((Xaug.map (fun r => dotQ r
      (List.zipWith (· + ·) s.w (scale a (matTdotv Xaug
        (List.zipWith (· - ·) Y s.y_prob)))))).map (sigmoid exp))) =
      .ok (cross_entropyQ log Y (((Xaug.map (fun r => dotQ r
        (List.zipWith (· + ·) s.w (scale a (matTdotv Xaug
          (List.zipWith (· - ·) Y s.y_prob)))))).map (sigmoid exp)))) :=
    cross_entropy_ok log (by simp [hY])
  rw [fitLoop, if_pos hg, hsub]
  dsimp only
  rw [hT]
  dsimp only
  rw [hadd]
  dsimp only
  rw [hmv]
  dsimp only
  rw [hce]
  rfl

theorem fitNext_w_length (exp log : ℚ → ℚ) (a : ℚ) (Xaug : List (List ℚ))
    (Y : List ℚ) (s : LoopState) (hw : s.w.length = (Xaug.headD []).length) :
    (fitNext exp log a Xaug Y s).w.length = (Xaug.headD []).length := by
  simp [fitNext, List.length_zipWith, scale_length, matTdotv_length, hw]

theorem fitNext_y_prob_length (exp log : ℚ → ℚ) (a : ℚ) (Xaug : List (List ℚ))
    (Y : List ℚ) (s : LoopState) :
    (fitNext exp log a Xaug Y s).y_prob.length = Xaug.length := by
  simp [fitNext]

theorem fitNext_iterations (exp log : ℚ → ℚ) (a : ℚ) (Xaug : List (List ℚ))
    (Y : List ℚ) (s : LoopState) :
    (fitNext exp log a Xaug Y s).iterations = s.iterations + 1 := rfl

/-- C3: in every iteration of `fit`'s gradient-descent loop (guard
satisfied), the weight vector is updated to
`w + a * X_augᵀ · (Y - y_prob)` — componentwise
`w[j] + a * ∑ i, X_aug[i][j] * (Y[i] - y_prob[i])`, with `y_prob` the
probability vector of the previous iteration and no division by the sample
count — after which `y_prob` and the cross-entropy loss are recomputed from
the updated weights. -/
theorem fit_update_rule (exp log : ℚ → ℚ) (a error_diff : ℚ)
    (Xaug : List (List ℚ)) (Y : List ℚ) (fuel : ℕ) (s : LoopState)
    (hrect : ∀ r ∈ Xaug, r.length = (Xaug.headD []).length)
    (hw : s.w.length = (Xaug.headD []).length)
    (hy : s.y_prob.length = Xaug.length)
    (hY : Y.length = Xaug.length)
    (hg : error_diff < s.e) :
    ∃ w' y_prob' e_new,
      fitLoop exp log a error_diff Xaug Y (fuel + 1) s =
        fitLoop exp log a error_diff Xaug Y fuel
          { w := w', y_prob := y_prob', e := s.e_prev - e_new, e_prev := e_new,
            iterations := s.iterations + 1 } ∧
      w'.length = s.w.length ∧
      (∀ j < s.w.length, w'.getD j 0 = s.w.getD j 0 +
        a * ∑ i in Finset.range Xaug.length,
          (Xaug.getD i []).getD j 0 * (Y.getD i 0 - s.y_prob.getD i 0)) ∧
      y_prob' = (Xaug.map (fun r => dotQ r w')).map (sigmoid exp) ∧
      e_new = cross_entropyQ log Y y_prob' := by
  refine ⟨(fitNext exp log a Xaug Y s).w, (fitNext exp log a Xaug Y s).y_prob,
    (fitNext exp log a Xaug Y s).e_prev,
    fitLoop_step exp log a error_diff Xaug Y fuel s hrect hw hy hY hg,
    (fitNext_w_length exp log a Xaug Y s hw).trans hw.symm, ?_, rfl, rfl⟩
  intro j hj
  have hjW : j < (Xaug.headD []).length := hw ▸ hj
  have hsum : dotQ (Xaug.map (fun r => r.getD j 0)) (List.zipWith (· - ·) Y s.y_prob) =
      ∑ i in Finset.range Xaug.length,
        (Xaug.getD i []).getD j 0 * (Y.getD i 0 - s.y_prob.getD i 0) := by
    rw [dotQ_eq_sum (by rw [List.length_map, List.length_zipWith]; omega),
      List.length_map]
    refine Finset.sum_congr rfl (fun i hi => ?_)
    have hiX : i < Xaug.length := Finset.mem_range.mp hi
    rw [getD_map _ _ _ [] hiX, getD_zipWith _ (by omega) (by omega)]
  show (List.zipWith (· + ·) s.w (scale a (matTdotv Xaug
      (List.zipWith (· - ·) Y s.y_prob)))).getD j 0 = _
  rw [getD_zipWith _ hj (by rw [scale_length, matTdotv_length]; exact hjW),
    scale_getD _ _ (by rw [matTdotv_length]; exact hjW),
    matTdotv_getD _ _ hjW, hsum]

/-- Witness for C3 at a concrete loop state. -/
theorem fit_update_rule_witness :
    ∃ w' y_prob' e_new,
      fitLoop (fun _ => 1) (fun _ => 0) 1 0 [[1]] [1] (0 + 1) ⟨[0], [0], 1, 5, 1⟩ =
        fitLoop (fun _ => 1) (fun _ => 0) 1 0 [[1]] [1] 0
          { w := w', y_prob := y_prob',
            e := (⟨[0], [0], 1, 5, 1⟩ : LoopState).e_prev - e_new, e_prev := e_new,
            iterations := (⟨[0], [0], 1, 5, 1⟩ : LoopState).iterations + 1 } ∧
      w'.length = ([0] : List ℚ).length ∧
      (∀ j < ([0] : List ℚ).length, w'.getD j 0 = ([0] : List ℚ).getD j 0 +
        1 * ∑ i in Finset.range ([[1]] : List (List ℚ)).length,
          (([[1]] : List (List ℚ)).getD i []).getD j 0 *
            (([1] : List ℚ).getD i 0 - ([0] : List ℚ).getD i 0)) ∧
      y_prob' = (([[1]] : List (List ℚ)).map (fun r => dotQ r w')).map
        (sigmoid (fun _ => 1)) ∧
      e_new = cross_entropyQ (fun _ => 0) [1] y_prob' :=
  fit_update_rule (fun _ => 1) (fun _ => 0) 1 0 [[1]] [1] 0 ⟨[0], [0], 1, 5, 1⟩
    (by decide) (by decide) (by decide) (by decide) (by decide)

/-- C4: `fit`'s loop runs while `iterations < max_iter` and
`e > error_diff` (the fuel `max_iter - iterations` carries the first
conjunct); on every well-shaped input the loop terminates with a result, and
at exit either the iteration cap is reached or the signed loss-improvement
`e` is at or below `error_diff`; with `e` initialized to `1`, the first
iteration runs whenever `error_diff < 1` and the cap is not already hit. -/
theorem fitLoop_terminates (exp log : ℚ → ℚ) (a error_diff : ℚ)
    (Xaug : List (List ℚ)) (Y : List ℚ) (max_iter fuel : ℕ) (s : LoopState)
    (hrect : ∀ r ∈ Xaug, r.length = (Xaug.headD []).length)
    (hw : s.w.length = (Xaug.headD []).length)
    (hy : s.y_prob.length = Xaug.length)
    (hY : Y.length = Xaug.length)
    (hsync : s.iterations + fuel = max_iter) :
    ∃ sf, fitLoop exp log a error_diff Xaug Y fuel s = .ok sf ∧
      s.iterations ≤ sf.iterations ∧
      (max_iter ≤ sf.iterations ∨ sf.e ≤ error_diff) ∧
      (s.e = 1 → error_diff < 1 → s.iterations < max_iter →
        s.iterations < sf.iterations) := by
  induction fuel generalizing s with
  | zero =>
    exact ⟨s, rfl, le_refl _, Or.inl (by omega), fun _ _ h => absurd h (by omega)⟩
  | succ fuel ih =>
    by_cases hg : error_diff < s.e
    · rw [fitLoop_step exp log a error_diff Xaug Y fuel s hrect hw hy hY hg]
      obtain ⟨sf, h1, h2, h3, _⟩ := ih (fitNext exp log a Xaug Y s)
        (fitNext_w_length exp log a Xaug Y s hw)
        (fitNext_y_prob_length exp log a Xaug Y s)
        (by rw [fitNext_iterations]; omega)
      rw [fitNext_iterations] at h2
      exact ⟨sf, h1, by omega, h3, fun _ _ _ => by omega⟩
    · refine ⟨s, ?_, le_refl _, Or.inr (le_of_not_lt hg), fun he hlt _ => ?_⟩
      · rw [fitLoop, if_neg hg]
      · exact absurd (he ▸ hlt) (fun h => hg h)

/-- Witness for C4 at a concrete loop state (loop guard initially true). -/
theorem fitLoop_terminates_witness :
    ∃ sf, fitLoop (fun _ => 1) (fun _ => 0) 1 0 [[1]] [0] 1 ⟨[0], [1/2], 1, 1, 1⟩ =
        .ok sf ∧
      (⟨[0], [1/2], 1, 1, 1⟩ : LoopState).iterations ≤ sf.iterations ∧
      (2 ≤ sf.iterations ∨ sf.e ≤ 0) ∧
      ((⟨[0], [1/2], 1, 1, 1⟩ : LoopState).e = 1 → (0 : ℚ) < 1 →
        (⟨[0], [1/2], 1, 1, 1⟩ : LoopState).iterations < 2 →
        (⟨[0], [1/2], 1, 1, 1⟩ : LoopState).iterations < sf.iterations) :=
  fitLoop_terminates (fun _ => 1) (fun _ => 0) 1 0 [[1]] [0] 2 1 ⟨[0], [1/2], 1, 1, 1⟩
    (by decide) (by decide) (by decide) (by decide) (by decide)

/-! ### Inference: `y_probab` and `predict` -/

theorem y_probab_ok (exp : ℚ → ℚ) (m : Model) (w : List ℚ) (X : List (List ℚ))
    (hw : m.w = some w) (hrect : ∀ r ∈ X, r.length = w.length) :
    y_probab exp m X = .ok ((X.map (fun r => dotQ r w)).map (sigmoid exp)) := by
  rw [y_probab, hw]
  dsimp only
  rw [matVecE_ok hrect]

theorem predict_ok (exp : ℚ → ℚ) (m : Model) (w : List ℚ) (X : List (List ℚ)) (p : ℚ)
    (htr : m.trained = true) (hw : m.w = some w)
    (hrect : ∀ r ∈ X, r.length + 1 = w.length) :
    predict exp m X p = .ok (X.map (fun r =>
      if sigmoid exp (dotQ (1 :: r) w) < p then (0 : ℚ) else 1)) := by
  rw [predict, if_pos htr,
    y_probab_ok exp m w (augment X) hw (fun r hr => by
      obtain ⟨r0, hr0, rfl⟩ := List.mem_map.mp hr
      simpa using hrect r0 hr0)]
  dsimp only
  simp [augment, List.map_map, Function.comp_def]

/-- A concrete trained model state (weights `[0, 0]`) used by witnesses and
counterexamples: the state a model reaches after a successful `fit` on a
one-feature dataset when the injected `randn` returns zeros. -/
def trainedModel : Model :=
  { D := some 1, trained := true, max_iter := 1000, a := 1 / 100, w := some [0, 0],
    N := some 1, error_diff := 1 / 10000000, show_ := false }

/-- C8: on a trained model with weight vector `w` and a feature matrix whose
rows have width `|w| - 1`, `predict(X, p)` returns a label vector of length
`len X`, each entry `0` when the predicted probability is strictly below `p`
and `1` otherwise — so every entry is in `{0, 1}`. -/
theorem predict_labels (exp : ℚ → ℚ) (m : Model) (w : List ℚ)
    (X : List (List ℚ)) (p : ℚ) (htr : m.trained = true) (hw : m.w = some w)
    (hrect : ∀ r ∈ X, r.length + 1 = w.length) :
    ∃ ys, predict exp m X p = .ok ys ∧ ys.length = X.length ∧
      (∀ i < X.length, ys.getD i 0 =
        if sigmoid exp (dotQ (1 :: X.getD i []) w) < p then 0 else 1) ∧
      (∀ y ∈ ys, y = 0 ∨ y = 1) := by
  refine ⟨_, predict_ok exp m w X p htr hw hrect, by simp, ?_, ?_⟩
  · intro i hi
    rw [getD_map _ _ _ [] hi]
  · intro y hy
    obtain ⟨r, _, rfl⟩ := List.mem_map.mp hy
    by_cases h : sigmoid exp (dotQ (1 :: r) w) < p <;> simp [h]

/-- Witness for C8 on the concrete trained model. -/
theorem predict_labels_witness :
    ∃ ys, predict (fun _ => 1) trainedModel [[3]] (1 / 2) = .ok ys ∧
      ys.length = ([[3]] : List (List ℚ)).length ∧
      (∀ i < ([[3]] : List (List ℚ)).length, ys.getD i 0 =
        if sigmoid (fun _ => 1) (dotQ (1 :: ([[3]] : List (List ℚ)).getD i []) [0, 0]) <
            (1 / 2 : ℚ) then 0 else 1) ∧
      (∀ y ∈ ys, y = 0 ∨ y = 1) :=
  predict_labels (fun _ => 1) trainedModel [0, 0] [[3]] (1 / 2) (by decide) (by decide)
    (by decide)

/-- C5 counterexample: `y_probab` (the code behind the spec's
`predict_probability`) does not augment `X` — on the trained model with
`w = [0, 0]` and `X = [[5]]` it fails with numpy's `ValueError` where the
spec-modelled behavior returns `sigmoid([1,5]·[0,0]) = 1/2` — and before
`fit` it fails with a `TypeError`, not the model-not-trained condition. -/
theorem y_probab_counterexample :
    y_probab (fun _ => 1) trainedModel [[5]] = .error .valueError ∧
    predict_probability_spec (fun _ => 1) trainedModel [[5]] = .ok [1 / 2] ∧
    y_probab (fun _ => 1) trainedModel [[5]] ≠
      predict_probability_spec (fun _ => 1) trainedModel [[5]] ∧
    y_probab (fun _ => 1) (init 1000 (1 / 100) (1 / 10000000) false) [[5]] =
      .error .typeError ∧
    y_probab (fun _ => 1) (init 1000 (1 / 100) (1 / 10000000) false) [[5]] ≠
      .error .notTrained := by
  have h1 : y_probab (fun _ => 1) trainedModel [[5]] = .error .valueError := rfl
  have h2 : predict_probability_spec (fun _ => 1) trainedModel [[5]] = .ok [1 / 2] := by
    norm_num [predict_probability_spec, trainedModel, matVecE, dotE, dotQ, augment,
      sigmoid]
  exact ⟨h1, h2, by rw [h1, h2]; simp, rfl, by decide⟩

/-- C5 (amended): `y_probab` performs no augmentation and no trained check:
it returns `sigmoid(X · w)` on the matrix it is given (its caller `predict`
augments beforehand), and with `w = None` — i.e. before `fit` — it fails
with a `TypeError` rather than the model-not-trained condition. -/
theorem y_probab_behavior (exp : ℚ → ℚ) (m : Model) (w : List ℚ)
    (X : List (List ℚ)) (hw : m.w = some w)
    (hrect : ∀ r ∈ X, r.length = w.length) :
    y_probab exp m X = .ok ((X.map (fun r => dotQ r w)).map (sigmoid exp)) ∧
    (∀ m2 : Model, m2.w = none → y_probab exp m2 X = .error .typeError) :=
  ⟨y_probab_ok exp m w X hw hrect, fun m2 h2 => by rw [y_probab, h2]⟩

/-- Witness for the amended C5 on the concrete trained model. -/
theorem y_probab_behavior_witness :
    y_probab (fun _ => 1) trainedModel [[3, 4]] =
      .ok ((([[3, 4]] : List (List ℚ)).map (fun r => dotQ r [0, 0])).map
        (sigmoid (fun _ => 1))) ∧
    (∀ m2 : Model, m2.w = none →
      y_probab (fun _ => 1) m2 [[3, 4]] = .error .typeError) :=
  y_probab_behavior (fun _ => 1) trainedModel [0, 0] [[3, 4]] (by decide) (by decide)

/-- C6 counterexample: `y_probab` is an inference operation, yet invoked
before `fit` it does not print-and-return-null (the untrained-model
condition): it raises a `TypeError`. -/
theorem untrained_y_probab_counterexample :
    y_probab (fun _ => 1) (init 1000 (1 / 100) (1 / 10000000) false) [[1]] =
      .error .typeError ∧
    y_probab (fun _ => 1) (init 1000 (1 / 100) (1 / 10000000) false) [[1]] ≠
      .error .notTrained := by
  decide

/-- C6 (amended): on a freshly constructed model, `predict` and `get_coef`
signal the untrained condition (print a message and return `None`) and never
return a computed result, while `y_probab` performs no check and fails with
a `TypeError` from the null weight vector. -/
theorem untrained_behavior (exp : ℚ → ℚ) (max_iter : ℕ) (a error_diff : ℚ)
    (sh : Bool) (X : List (List ℚ)) (p : ℚ) :
    predict exp (init max_iter a error_diff sh) X p = .error .notTrained ∧
    get_coef (init max_iter a error_diff sh) = .error .notTrained ∧
    y_probab exp (init max_iter a error_diff sh) X = .error .typeError :=
  ⟨rfl, rfl, rfl⟩

/-! ### Shape handling of `fit` and `predict`  -/

/-- C7 counterexample: a 5-row `X` with a length-4 `Y` makes `fit` proceed
past entry (augmentation, weight initialization, probability computation)
and fail with numpy's `ValueError` inside `cross_entropy`'s dot product —
not with an entry-time `ShapeMismatchError` as the spec-side definition
does; likewise `predict` on a trained model with a wrong feature width fails
with `ValueError` inside the matrix product. -/
theorem no_entry_shape_checks_counterexample :
    fit (fun _ => 1) (fun _ => 0) (fun n => List.replicate n 0)
        (init 1000 (1 / 100) (1 / 10000000) false)
        [[1], [1], [1], [1], [1]] [0, 0, 0, 0] = .error .valueError ∧
    fit_shape_checked_spec (fun _ => 1) (fun _ => 0) (fun n => List.replicate n 0)
        (init 1000 (1 / 100) (1 / 10000000) false)
        [[1], [1], [1], [1], [1]] [0, 0, 0, 0] = .error .shapeMismatch ∧
    fit (fun _ => 1) (fun _ => 0) (fun n => List.replicate n 0)
        (init 1000 (1 / 100) (1 / 10000000) false)
        [[1], [1], [1], [1], [1]] [0, 0, 0, 0] ≠
      fit_shape_checked_spec (fun _ => 1) (fun _ => 0) (fun n => List.replicate n 0)
        (init 1000 (1 / 100) (1 / 10000000) false)
        [[1], [1], [1], [1], [1]] [0, 0, 0, 0] ∧
    predict (fun _ => 1) trainedModel [[1, 2, 3]] (1 / 2) = .error .valueError ∧
    predict_shape_checked_spec (fun _ => 1) trainedModel [[1, 2, 3]] (1 / 2) =
      .error .shapeMismatch ∧
    predict (fun _ => 1) trainedModel [[1, 2, 3]] (1 / 2) ≠
      predict_shape_checked_spec (fun _ => 1) trainedModel [[1, 2, 3]] (1 / 2) := by
  have hf : fit (fun _ => 1) (fun _ => 0) (fun n => List.replicate n 0)
      (init 1000 (1 / 100) (1 / 10000000) false)
      [[1], [1], [1], [1], [1]] [0, 0, 0, 0] = .error .valueError := rfl
  have hfs : fit_shape_checked_spec (fun _ => 1) (fun _ => 0)
      (fun n => List.replicate n 0) (init 1000 (1 / 100) (1 / 10000000) false)
      [[1], [1], [1], [1], [1]] [0, 0, 0, 0] = .error .shapeMismatch := rfl
  have hp : predict (fun _ => 1) trainedModel [[1, 2, 3]] (1 / 2) =
      .error .valueError := rfl
  have hps : predict_shape_checked_spec (fun _ => 1) trainedModel [[1, 2, 3]]
      (1 / 2) = .error .shapeMismatch := rfl
  refine ⟨hf, hfs, ?_, hp, hps, ?_⟩
  · rw [hf, hfs]; decide
  · rw [hp, hps]; decide

/-- C7 (amended): neither `fit` nor `predict` validates shapes at entry; a
mismatch surfaces as numpy's `ValueError` raised mid-computation — for
`fit`, inside `cross_entropy`'s dot product, after augmentation and weight
initialization already ran; for `predict`, inside the matrix product in
`y_probab`. -/
theorem no_entry_shape_checks (exp log : ℚ → ℚ) (randn : ℕ → List ℚ) (m : Model)
    (X : List (List ℚ)) (Y : List ℚ)
    (hrect : ∀ r ∈ X, r.length = (X.headD []).length)
    (hr : (randn ((X.headD []).length + 1)).length = (X.headD []).length + 1)
    (hne : Y.length ≠ X.length) :
    fit exp log randn m X Y = .error .valueError ∧
    (∀ (m2 : Model) (w row : List ℚ) (rest : List (List ℚ)) (p : ℚ),
      m2.trained = true → m2.w = some w → row.length + 1 ≠ w.length →
      predict exp m2 (row :: rest) p = .error .valueError) := by
  constructor
  · have hmv : matVecE (augment X)
        ((randn ((X.headD []).length + 1)).map (fun r => (1 / 100 : ℚ) * r)) =
        .ok ((augment X).map (fun r => dotQ r
          ((randn ((X.headD []).length + 1)).map (fun r => (1 / 100 : ℚ) * r)))) :=
      matVecE_ok (fun r hrow => by
        obtain ⟨r0, h0, rfl⟩ := List.mem_map.mp hrow
        have hlen := hrect r0 h0
        simp only [List.length_cons, List.length_map]
        omega)
    have hce : cross_entropy log Y
        ((((augment X).map (fun r => dotQ r
          ((randn ((X.headD []).length + 1)).map (fun r => (1 / 100 : ℚ) * r)))).map
            (sigmoid exp))) = .error .valueError := by
      rw [cross_entropy, dotE, if_neg (by simpa [augment] using hne)]
    simp only [fit]
    rw [hmv]
    dsimp only
    rw [hce]
  · intro m2 w row rest p htr2 hw2 hwid
    have hdot : dotE (1 :: row) w = .error .valueError := by
      rw [dotE, if_neg (by simpa using hwid)]
    rw [predict, if_pos htr2, y_probab, hw2]
    dsimp only
    rw [show augment (row :: rest) = (1 :: row) :: augment rest from rfl,
      matVecE, hdot]

/-- Witness for the amended C7 at the 5-row/4-label input. -/
theorem no_entry_shape_checks_witness :
    (fit (fun _ => 1) (fun _ => 0) (fun n => List.replicate n 0)
        (init 1000 (1 / 100) (1 / 10000000) false)
        [[1], [1], [1], [1], [1]] [0, 0, 0, 1] = .error .valueError ∧
    (∀ (m2 : Model) (w row : List ℚ) (rest : List (List ℚ)) (p : ℚ),
      m2.trained = true → m2.w = some w → row.length + 1 ≠ w.length →
      predict (fun _ => 1) m2 (row :: rest) p = .error .valueError)) :=
  no_entry_shape_checks (fun _ => 1) (fun _ => 0) (fun n => List.replicate n 0)
    (init 1000 (1 / 100) (1 / 10000000) false)
    [[1], [1], [1], [1], [1]] [0, 0, 0, 1] (by decide) (by decide) (by decide)

/-- C10 counterexample: `fit` does have a failure path that leaves the model
untrained — on a 5-row `X` with a length-4 `Y` it fails (numpy
`ValueError`) instead of returning, and the model object keeps
`trained = false`. -/
theorem fit_failure_path_counterexample :
    fit (fun _ => 1) (fun _ => 0) (fun n => List.replicate n 0)
        (init 1000 (1 / 100) (1 / 10000000) false)
        [[2], [2], [2], [2], [2]] [1, 1, 1, 1] = .error .valueError ∧
    (init 1000 (1 / 100) (1 / 10000000) false).trained = false :=
  ⟨rfl, rfl⟩

/-- Every `fit` call that returns normally mutated the model to
`trained := true` and `w := some sf.w`, where `sf` is the final state of the
gradient-descent loop that `fit` ran (started from the initial weights
`0.01 * randn(D+1)`, the initial probabilities, `e = 1`, `iterations = 1`,
with fuel `max_iter - 1`). -/
theorem fit_ok_state (exp log : ℚ → ℚ) (randn : ℕ → List ℚ) (m : Model)
    (X : List (List ℚ)) (Y : List ℚ) (m' : Model)
    (h : fit exp log randn m X Y = .ok m') :
    m'.trained = true ∧ ∃ z0 e0 sf,
      matVecE (augment X)
        ((randn ((X.headD []).length + 1)).map (fun r => (1 / 100 : ℚ) * r)) =
        .ok z0 ∧
      cross_entropy log Y (z0.map (sigmoid exp)) = .ok e0 ∧
      fitLoop exp log m.a m.error_diff (augment X) Y (m.max_iter - 1)
        { w := (randn ((X.headD []).length + 1)).map (fun r => (1 / 100 : ℚ) * r),
          y_prob := z0.map (sigmoid exp), e := 1, e_prev := e0,
          iterations := 1 } = .ok sf ∧
      m'.w = some sf.w := by
  simp only [fit] at h
  cases hmv : matVecE (augment X)
      ((randn ((X.headD []).length + 1)).map (fun r => (1 / 100 : ℚ) * r)) with
  | error err => rw [hmv] at h; simp at h
  | ok z0 =>
    rw [hmv] at h
    dsimp only at h
    cases hce : cross_entropy log Y (z0.map (sigmoid exp)) with
    | error err => rw [hce] at h; simp at h
    | ok e0 =>
      rw [hce] at h
      dsimp only at h
      cases hfl : fitLoop exp log m.a m.error_diff (augment X) Y (m.max_iter - 1)
          { w := (randn ((X.headD []).length + 1)).map (fun r => (1 / 100 : ℚ) * r),
            y_prob := z0.map (sigmoid exp), e := 1, e_prev := e0,
            iterations := 1 } with
      | error err => rw [hfl] at h; simp at h
      | ok sf =>
        rw [hfl] at h
        dsimp only at h
        injection h with h'
        exact ⟨by rw [← h'], z0, e0, sf, rfl, hce, hfl, by rw [← h']⟩

/-- C10 (amended): every `fit` call that returns normally ends with
`trained = true` and `w` assigned to the weights of the final state `sf` of
the gradient-descent loop `fit` ran — regardless of whether that loop exited
at the iteration cap or because the (possibly negative) loss delta dropped
to `error_diff`; and once trained, a model stays trained: `fit` is the only
operation of the class that produces a model state (all others are read-only
by type), and it always leaves `trained = true`.  However, `fit` can also
fail with a numpy error before reaching its final assignments, leaving the
model untrained (see the counterexample). -/
theorem fit_ok_trained (exp log : ℚ → ℚ) (randn : ℕ → List ℚ) (m : Model)
    (X : List (List ℚ)) (Y : List ℚ) (m' : Model)
    (h : fit exp log randn m X Y = .ok m') :
    m'.trained = true ∧
    (∃ z0 e0 sf,
      matVecE (augment X)
        ((randn ((X.headD []).length + 1)).map (fun r => (1 / 100 : ℚ) * r)) =
        .ok z0 ∧
      cross_entropy log Y (z0.map (sigmoid exp)) = .ok e0 ∧
      fitLoop exp log m.a m.error_diff (augment X) Y (m.max_iter - 1)
        { w := (randn ((X.headD []).length + 1)).map (fun r => (1 / 100 : ℚ) * r),
          y_prob := z0.map (sigmoid exp), e := 1, e_prev := e0,
          iterations := 1 } = .ok sf ∧
      m'.w = some sf.w) ∧
    (∀ m2 m2' : Model, m2.trained = true →
      fit exp log randn m2 X Y = .ok m2' → m2'.trained = true) := by
  obtain ⟨h1, h2⟩ := fit_ok_state exp log randn m X Y m' h
  exact ⟨h1, h2, fun m2 m2' _ h2' => (fit_ok_state exp log randn m2 X Y m2' h2').1⟩

/-- Witness for the amended C10: a concrete `fit` call that returns. -/
theorem fit_ok_trained_witness :
    ({ D := some 1, trained := true, max_iter := 1, a := 1 / 100, w := some [0, 0],
       N := some 1, error_diff := 1 / 10000000, show_ := false } : Model).trained =
      true ∧
    (∃ z0 e0 sf,
      matVecE (augment [[1]])
        (((fun n => List.replicate n (0 : ℚ))
            ((([[1]] : List (List ℚ)).headD []).length + 1)).map
          (fun r => (1 / 100 : ℚ) * r)) = .ok z0 ∧
      cross_entropy (fun _ => 0) [0] (z0.map (sigmoid (fun _ => 1))) = .ok e0 ∧
      fitLoop (fun _ => 1) (fun _ => 0) (init 1 (1 / 100) (1 / 10000000) false).a
        (init 1 (1 / 100) (1 / 10000000) false).error_diff (augment [[1]]) [0]
        ((init 1 (1 / 100) (1 / 10000000) false).max_iter - 1)
        { w := ((fun n => List.replicate n (0 : ℚ))
              ((([[1]] : List (List ℚ)).headD []).length + 1)).map
            (fun r => (1 / 100 : ℚ) * r),
          y_prob := z0.map (sigmoid (fun _ => 1)), e := 1, e_prev := e0,
          iterations := 1 } = .ok sf ∧
      ({ D := some 1, trained := true, max_iter := 1, a := 1 / 100,
         w := some [0, 0], N := some 1, error_diff := 1 / 10000000,
         show_ := false } : Model).w = some sf.w) ∧
    (∀ m2 m2' : Model, m2.trained = true →
      fit (fun _ => 1) (fun _ => 0) (fun n => List.replicate n (0 : ℚ)) m2 [[1]] [0] =
        .ok m2' → m2'.trained = true) :=
  fit_ok_trained (fun _ => 1) (fun _ => 0) (fun n => List.replicate n (0 : ℚ))
    (init 1 (1 / 100) (1 / 10000000) false) [[1]] [0] _ (by
      norm_num [fit, init, fitLoop, matVecE, dotE, dotQ, augment, sigmoid,
        cross_entropy, List.replicate])

/-! ### The ROC sweep -/

theorem confusion_matrix_isSome : ∀ {T Y : List ℚ}, T.length ≤ Y.length →
    ∃ q, confusion_matrix T Y = some q
  | [], _, _ => ⟨(0, 0, 0, 0), rfl⟩
  | t :: T, [], h => by simp at h
  | t :: T, y :: Y, h => by
    obtain ⟨q, hq⟩ := confusion_matrix_isSome (T := T) (Y := Y) (by simpa using h)
    exact ⟨_, by rw [confusion_matrix, hq]; rfl⟩

/-- `TP + FN` counts the samples with `T[i] = 0` and `FP + TN` the rest,
whatever the prediction entries are. -/
theorem confusion_matrix_counts : ∀ {T Y : List ℚ} {q : ℕ × ℕ × ℕ × ℕ},
    confusion_matrix T Y = some q →
    q.1 + q.2.2.1 = T.countP (fun t => decide (t = 0)) ∧
    q.2.1 + q.2.2.2 = T.countP (fun t => !decide (t = 0))
  | [], Y, q, h => by
    simp [confusion_matrix] at h
    simp [← h]
  | t :: T, [], q, h => by simp [confusion_matrix] at h
  | t :: T, y :: Y, q, h => by
    rw [confusion_matrix, Option.map_eq_some'] at h
    obtain ⟨q0, hq0, hstep⟩ := h
    obtain ⟨hc1, hc2⟩ := confusion_matrix_counts hq0
    by_cases ht : t = 0
    · by_cases hy : y = 0 <;>
        · subst hstep
          simp [ht, hy, List.countP_cons]
          omega
    · by_cases hy : y = 1 <;>
        · subst hstep
          simp [ht, hy, List.countP_cons]
          omega

theorem ROC_sweep_ok (exp : ℚ → ℚ) (m : Model) (X : List (List ℚ)) (T : List ℚ)
    (f : ℚ → ℚ × ℚ) : ∀ ps : List ℚ,
    (∀ p ∈ ps, ∃ yp q, predict exp m X p = .ok yp ∧
      confusion_matrix T yp = some q ∧
      f p = ((q.1 : ℚ) / (q.1 + q.2.2.1), 1 - (q.2.2.2 : ℚ) / (q.2.2.2 + q.2.1))) →
    ROC_sweep exp m X T ps =
      .ok (ps.map (fun p => (f p).1), ps.map (fun p => (f p).2))
  | [] => fun _ => rfl
  | p :: ps => fun h => by
    obtain ⟨yp, q, hpred, hcm, hf⟩ := h p (List.mem_cons_self _ _)
    rw [ROC_sweep, hpred]
    dsimp only
    rw [hcm]
    dsimp only
    rw [ROC_sweep_ok exp m X T f ps (fun p' hp' => h p' (List.mem_cons_of_mem _ hp'))]
    dsimp only
    rw [List.map_cons, List.map_cons, hf]

theorem linspace100_getD {i : ℕ} (h : i < 100) :
    linspace100.getD i 0 = (i : ℚ) / 99 := by
  have hl : i < linspace100.length := by
    rw [linspace100, List.length_map, List.length_range]; exact h
  rw [List.getD_eq_getElem _ _ hl]
  simp only [linspace100, List.getElem_map, List.getElem_range]

/-- C2: on a trained model and a labeled test set containing both classes,
`ROC` sweeps exactly 100 evenly spaced thresholds covering `[0, 1]`
inclusive; at each it records `recall = TP/(TP+FN)` and
`1 - specificity = 1 - TN/(TN+FP)` from the confusion counts of the
predictions at that threshold; it computes the AUC by the trapezoidal rule
over consecutive pairs in threshold-sweep order (not sorted by x); and its
output is the ordered sequence of (1-specificity, recall) values together
with the scalar AUC (the source hands exactly these to the plotting sink). -/
theorem ROC_spec (exp : ℚ → ℚ) (m : Model) (w : List ℚ) (X : List (List ℚ))
    (T : List ℚ) (htr : m.trained = true) (hw : m.w = some w)
    (hrect : ∀ r ∈ X, r.length + 1 = w.length) (hlen : T.length = X.length)
    (h0 : ∃ t ∈ T, t = 0) (h1 : ∃ t ∈ T, t ≠ 0) :
    ∃ xs ys auc, ROC exp m X T = .ok (xs, ys, auc) ∧
      linspace100.length = 100 ∧
      (∀ i < 100, linspace100.getD i 0 = (i : ℚ) / 99) ∧
      linspace100.getD 0 0 = 0 ∧ linspace100.getD 99 0 = 1 ∧
      (∀ i < 99, linspace100.getD (i + 1) 0 - linspace100.getD i 0 = 1 / 99) ∧
      xs.length = 100 ∧ ys.length = 100 ∧
      (∀ i : ℕ, i < 100 → ∃ yp TP FP FN TN,
        predict exp m X ((i : ℚ) / 99) = .ok yp ∧
        confusion_matrix T yp = some (TP, FP, FN, TN) ∧
        0 < TP + FN ∧ 0 < TN + FP ∧
        ys.getD i 0 = (TP : ℚ) / (TP + FN) ∧
        xs.getD i 0 = 1 - (TN : ℚ) / (TN + FP)) ∧
      auc = ∑ i in Finset.range 99,
        (ys.getD i 0 + ys.getD (i + 1) 0) *
          (xs.getD (i + 1) 0 - xs.getD i 0) * (1 / 2) := by
  have hl100 : linspace100.length = 100 := by
    rw [linspace100, List.length_map, List.length_range]
  set P : ℚ → List ℚ := fun p =>
    X.map (fun r => if sigmoid exp (dotQ (1 :: r) w) < p then (0 : ℚ) else 1)
    with hP
  have hPlen : ∀ p, T.length ≤ (P p).length := fun p => by
    rw [hP]; simp [hlen]
  set f : ℚ → ℚ × ℚ := fun p =>
    (confusion_matrix T (P p)).elim (0, 0) (fun q =>
      ((q.1 : ℚ) / (q.1 + q.2.2.1), 1 - (q.2.2.2 : ℚ) / (q.2.2.2 + q.2.1)))
    with hf
  have hstep : ∀ p, ∃ yp q, predict exp m X p = .ok yp ∧
      confusion_matrix T yp = some q ∧
      f p = ((q.1 : ℚ) / (q.1 + q.2.2.1), 1 - (q.2.2.2 : ℚ) / (q.2.2.2 + q.2.1)) :=
    fun p => by
      obtain ⟨q, hq⟩ := confusion_matrix_isSome (hPlen p)
      exact ⟨P p, q, predict_ok exp m w X p htr hw hrect, hq, by rw [hf]; simp [hq]⟩
  have hsweep := ROC_sweep_ok exp m X T f linspace100 (fun p _ => hstep p)
  have hROC : ROC exp m X T = .ok
      (linspace100.map (fun p => (f p).2), linspace100.map (fun p => (f p).1),
       ((List.range ((linspace100.map (fun p => (f p).1)).length - 1)).map (fun i =>
          ((linspace100.map (fun p => (f p).1)).getD i 0 +
            (linspace100.map (fun p => (f p).1)).getD (i + 1) 0) *
          ((linspace100.map (fun p => (f p).2)).getD (i + 1) 0 -
            (linspace100.map (fun p => (f p).2)).getD i 0) * (1 / 2))).sum) := by
    rw [ROC, hsweep]
  refine ⟨linspace100.map (fun p => (f p).2), linspace100.map (fun p => (f p).1),
    _, hROC, hl100, fun i hi => linspace100_getD hi,
    by rw [linspace100_getD (by omega)]; norm_num,
    by rw [linspace100_getD (by omega)]; norm_num,
    fun i hi => by
      rw [linspace100_getD (by omega), linspace100_getD (by omega)]
      push_cast
      ring,
    by rw [List.length_map, hl100], by rw [List.length_map, hl100], ?_, ?_⟩
  · intro i hi
    obtain ⟨yp, q, hpred, hcm, hfp⟩ := hstep ((i : ℚ) / 99)
    obtain ⟨hc1, hc2⟩ := confusion_matrix_counts hcm
    obtain ⟨t0, ht0mem, ht0⟩ := h0
    obtain ⟨t1, ht1mem, ht1⟩ := h1
    refine ⟨yp, q.1, q.2.1, q.2.2.1, q.2.2.2, hpred, hcm, ?_, ?_, ?_, ?_⟩
    · rw [hc1]
      exact List.countP_pos_iff.mpr ⟨t0, ht0mem, by simpa using ht0⟩
    · have : 0 < q.2.1 + q.2.2.2 := by
        rw [hc2]
        exact List.countP_pos_iff.mpr ⟨t1, ht1mem, by simpa using ht1⟩
      omega
    · rw [getD_map _ _ _ 0 (by rw [hl100]; exact hi), linspace100_getD hi, hfp]
    · rw [getD_map _ _ _ 0 (by rw [hl100]; exact hi), linspace100_getD hi, hfp]
  · rw [show (linspace100.map (fun p => (f p).1)).length - 1 = 99 from by
      rw [List.length_map, hl100]]
    exact sum_list_range _ 99

/-- Witness for C2 on a concrete trained model and a two-sample test set
with one label per class. -/
theorem ROC_spec_witness :
    ∃ xs ys auc,
      ROC (fun _ => 1) trainedModel [[0], [0]] [0, 1] = .ok (xs, ys, auc) ∧
      linspace100.length = 100 ∧
      (∀ i < 100, linspace100.getD i 0 = (i : ℚ) / 99) ∧
      linspace100.getD 0 0 = 0 ∧ linspace100.getD 99 0 = 1 ∧
      (∀ i < 99, linspace100.getD (i + 1) 0 - linspace100.getD i 0 = 1 / 99) ∧
      xs.length = 100 ∧ ys.length = 100 ∧
      (∀ i : ℕ, i < 100 → ∃ yp TP FP FN TN,
        predict (fun _ => 1) trainedModel [[0], [0]] ((i : ℚ) / 99) = .ok yp ∧
        confusion_matrix [0, 1] yp = some (TP, FP, FN, TN) ∧
        0 < TP + FN ∧ 0 < TN + FP ∧
        ys.getD i 0 = (TP : ℚ) / (TP + FN) ∧
        xs.getD i 0 = 1 - (TN : ℚ) / (TN + FP)) ∧
      auc = ∑ i in Finset.range 99,
        (ys.getD i 0 + ys.getD (i + 1) 0) *
          (xs.getD (i + 1) 0 - xs.getD i 0) * (1 / 2) :=
  ROC_spec (fun _ => 1) trainedModel [0, 0] [[0], [0]] [0, 1] (by decide) (by decide)
    (by decide) (by decide) ⟨0, by decide, rfl⟩ ⟨1, by decide, by decide⟩

end Logistic_regression
